import Mathlib

/-!
Shallow embedding of the frame-dispatch core of `victron-gx-modbus`
(`src/lib.rs` together with `src/ac.rs`, `src/battery.rs`, `src/ess.rs`,
`src/pvinverter.rs`).

Modelling conventions:
* `f64` payload values are modelled as exact rationals (`Rat`); the code
  only stores and sums them, it never relies on rounding.
* `Option<f64>` fields become `Option Rat`.
* `HashMap<u16, T>` becomes an association list `List (Nat × T)` with
  first-match lookup; `entry(id).or_default()` followed by a mutation
  becomes `updateEntry` (update the first matching entry in place, or
  append a freshly defaulted one).
* The payload pipeline (`std::str::from_utf8`, `serde_json::from_str`,
  `json.get("value").and_then(|v| v.as_f64())`) is modelled by `Payload`
  (invalid UTF-8 / invalid JSON / a parsed JSON tree) and `decodeValue`.
-/

namespace VictronGx

/-- A parsed JSON document, as produced by `serde_json::from_str`. -/
inductive Json where
  | null : Json
  | bool (b : Bool) : Json
  | num (q : Rat) : Json
  | str (s : String) : Json
  | arr (xs : List Json) : Json
  | obj (fields : List (String × Json)) : Json

/-- Member lookup on a JSON object, as `serde_json::Value::get(key)`:
`None` on any non-object value. -/
def lookupField : List (String × Json) → String → Option Json
  | [], _ => none
  | (k, v) :: rest, key => if k = key then some v else lookupField rest key

def Json.get (j : Json) (key : String) : Option Json :=
  match j with
  | .obj fields => lookupField fields key
  | _ => none

/-- `serde_json::Value::as_f64`: a numeric value yields its number,
everything else yields `None`. -/
def Json.as_f64 : Json → Option Rat
  | .num q => some q
  | _ => none

/-- The inbound payload bytes after the two decode steps of
`handle_publish`: invalid UTF-8 (the frame is dropped before dispatch),
text that fails JSON parsing (dispatch continues with value `None`), or a
parsed JSON document. -/
inductive Payload where
  | invalidUtf8 : Payload
  | invalidJson : Payload
  | json (j : Json) : Payload

/-- `json.get("value").and_then(|v| v.as_f64())`, with the JSON-parse-error
branch of `handle_publish` folded in (it sets the value to `None`). -/
def decodeValue : Payload → Option Rat
  | .invalidUtf8 => none
  | .invalidJson => none
  | .json j => (j.get "value").bind Json.as_f64

/-- `AcSpec` from `src/ac.rs`: voltage, power, frequency, single phase. -/
structure AcSpec where
  voltage : Option Rat
  power : Option Rat
  frequency : Option Rat
deriving DecidableEq, Repr

/-- `#[derive(Default)]` for `AcSpec`: every field `None`. -/
def AcSpec.init : AcSpec := ⟨none, none, none⟩

/-- `AcSpec::handle_frame` from `src/ac.rs`. -/
def AcSpec.handle_frame (s : AcSpec) (parts : List String) (value : Option Rat) : AcSpec :=
  match parts with
  | ["L1", "V"] => { s with voltage := value }
  | ["L1", "P"] => { s with power := value }
  | ["L1", "F"] => { s with frequency := value }
  | _ => s

/-- `BatteryDC` from `src/battery.rs`. -/
structure BatteryDC where
  dc_power : Option Rat
  dc_current : Option Rat
  dc_voltage : Option Rat
  cell_min_voltage : Option Rat
  cell_max_voltage : Option Rat
  temperature : Option Rat
  soc : Option Rat
  soh : Option Rat
deriving DecidableEq, Repr

/-- `#[derive(Default)]` for `BatteryDC`: every field `None`. -/
def BatteryDC.init : BatteryDC := ⟨none, none, none, none, none, none, none, none⟩

/-- `BatteryDC::handle_frame` from `src/battery.rs`. -/
def BatteryDC.handle_frame (b : BatteryDC) (parts : List String) (value : Option Rat) : BatteryDC :=
  match parts with
  | ["Dc", "0", "Temperature"] => { b with temperature := value }
  | ["Dc", "0", "Power"] => { b with dc_power := value }
  | ["Dc", "0", "Current"] => { b with dc_current := value }
  | ["Dc", "0", "Voltage"] => { b with dc_voltage := value }
  | ["System", "MinCellVoltage"] => { b with cell_min_voltage := value }
  | ["System", "MaxCellVoltage"] => { b with cell_max_voltage := value }
  | ["Soc"] => { b with soc := value }
  | ["Soh"] => { b with soh := value }
  | _ => b

/-- `BatterySummary` from `src/battery.rs`. -/
structure BatterySummary where
  avg_voltage : Option Rat
  avg_temperature : Option Rat
  total_power : Option Rat
deriving DecidableEq, Repr

/-- `BatterySummary::from_batteries`: the `avg_*` fields are `None`
(`TODO` in the source); `total_power` collects the `Some` dc powers and is
`None` when none are present, otherwise their sum. -/
def BatterySummary.from_batteries (batteries : List BatteryDC) : BatterySummary :=
  { avg_voltage := none
    avg_temperature := none
    total_power :=
      let values : List Rat := batteries.filterMap (fun b => b.dc_power)
      if values.isEmpty then none else some values.sum }

/-- `Ess` from `src/ess.rs`. -/
structure Ess where
  grid_setpoint : Option Rat
deriving DecidableEq, Repr

/-- `#[derive(Default)]` for `Ess`. -/
def Ess.init : Ess := ⟨none⟩

/-- `Ess::handle_frame` from `src/ess.rs`. -/
def Ess.handle_frame (e : Ess) (parts : List String) (value : Option Rat) : Ess :=
  match parts with
  | ["L1", "AcPowerSetpoint"] => { e with grid_setpoint := value }
  | _ => e

/-- `PvInverter` from `src/pvinverter.rs`. -/
structure PvInverter where
  power : Option Rat
  max_power : Option Rat
  total_energy : Option Rat
deriving DecidableEq, Repr

/-- `#[derive(Default)]` for `PvInverter`. -/
def PvInverter.init : PvInverter := ⟨none, none, none⟩

/-- `PvInverter::handle_frame` from `src/pvinverter.rs`. -/
def PvInverter.handle_frame (p : PvInverter) (parts : List String) (value : Option Rat) : PvInverter :=
  match parts with
  | ["Ac", "Power"] => { p with power := value }
  | ["Ac", "MaxPower"] => { p with max_power := value }
  | ["Ac", "Energy", "Forward"] => { p with total_energy := value }
  | _ => p

/-- `PvInverterSummary` from `src/pvinverter.rs`. -/
structure PvInverterSummary where
  total_power : Option Rat
deriving DecidableEq, Repr

/-- `PvInverterSummary::from_pv_inverters`. -/
def PvInverterSummary.from_pv_inverters (inverters : List PvInverter) : PvInverterSummary :=
  { total_power :=
      let values : List Rat := inverters.filterMap (fun b => b.power)
      if values.isEmpty then none else some values.sum }

/-- `VictronData` from `src/lib.rs`; the two `HashMap<u16, _>` maps are
association lists keyed by the parsed device id. -/
structure VictronData where
  ac_input : AcSpec
  ac_output : AcSpec
  ess : Ess
  batteries_dc : List (Nat × BatteryDC)
  pv_inverters : List (Nat × PvInverter)
deriving DecidableEq, Repr

/-- `VictronData::default()`: both AC records, the ESS record all-`None`,
both maps empty. -/
def VictronData.init : VictronData := ⟨AcSpec.init, AcSpec.init, Ess.init, [], []⟩

/-- `HashMap` lookup (first matching key). -/
def lookupRecord {β : Type} : List (Nat × β) → Nat → Option β
  | [], _ => none
  | (k, v) :: rest, key => if k = key then some v else lookupRecord rest key

/-- `map.entry(id).or_default()` followed by mutating the entry through
`f`: update the first entry with the key in place, or append a freshly
defaulted entry with `f` applied. -/
def updateEntry {β : Type} : List (Nat × β) → Nat → (β → β) → β → List (Nat × β)
  | [], key, f, dflt => [(key, f dflt)]
  | (k, v) :: rest, key, f, dflt =>
    if k = key then (k, f v) :: rest else (k, v) :: updateEntry rest key f dflt

/-- Rust `char::is_digit(10)` restricted to ASCII, as `u16::from_str`
uses: only `0`-`9` count. -/
def isAsciiDigit (c : Char) : Bool := '0' ≤ c && c ≤ '9'

/-- The optional leading `+` sign accepted by `u16::from_str`. -/
def stripPlus : List Char → List Char
  | '+' :: rest => rest
  | cs => cs

/-- The digit part of `u16::from_str`: one or more ASCII digits whose
value stays below `2^16`; anything else is a parse error (`none`). -/
def parseDigitsVal (cs : List Char) : Option Nat :=
  if cs.isEmpty then none
  else if cs.all isAsciiDigit then
    let n := cs.foldl (fun a c => a * 10 + (c.toNat - 48)) 0
    if n < 65536 then some n else none
  else none

/-- `str::parse::<u16>()`: an optional leading `+`, then one or more ASCII
digits, value below `2^16`. -/
def parseU16 (s : String) : Option Nat :=
  parseDigitsVal (stripPlus s.data)

/-- `str::strip_prefix` on character lists: `some` of the remainder when
the first argument heads the second, `none` otherwise. -/
def dropLeading? : List Char → List Char → Option (List Char)
  | [], s => some s
  | _ :: _, [] => none
  | a :: p, b :: s => if a = b then dropLeading? p s else none

/-- Rust `str::split('/')` on character lists (keeps empty pieces, yields
one empty piece for the empty input). -/
def splitOnChar (sep : Char) : List Char → List (List Char)
  | [] => [[]]
  | c :: rest =>
    let r := splitOnChar sep rest
    if c = sep then [] :: r
    else match r with
      | [] => [[c]]
      | h :: t => (c :: h) :: t

/-- The `match parts.as_slice()` dispatch of `handle_publish` in
`src/lib.rs`, arms in source order. -/
def route (d : VictronData) (parts : List String) (value : Option Rat) : VictronData :=
  match parts with
  | "vebus" :: "275" :: "Ac" :: "ActiveIn" :: rest =>
      { d with ac_input := d.ac_input.handle_frame rest value }
  | "vebus" :: "275" :: "Ac" :: "Out" :: rest =>
      { d with ac_output := d.ac_output.handle_frame rest value }
  | "battery" :: id :: rest =>
      let idn : Nat := (parseU16 id).getD 0
      { d with batteries_dc :=
          updateEntry d.batteries_dc idn (fun b => b.handle_frame rest value) BatteryDC.init }
  | "pvinverter" :: id :: rest =>
      let idn : Nat := (parseU16 id).getD 0
      { d with pv_inverters :=
          updateEntry d.pv_inverters idn (fun p => p.handle_frame rest value) PvInverter.init }
  | "vebus" :: "275" :: "Hub4" :: rest =>
      { d with ess := d.ess.handle_frame rest value }
  | _ => d

/-- The topic half of `handle_publish`: strip `N/<serial>/`, return early
when the topic lacks it, split the remaining suffix on `/`, dispatch. -/
def dispatch (d : VictronData) (serial_number topic : String) (value : Option Rat) : VictronData :=
  match dropLeading? ("N/" ++ serial_number ++ "/").data topic.data with
  | none => d
  | some suffixChars => route d ((splitOnChar '/' suffixChars).map String.mk) value

/-- `VictronGx::handle_publish` from `src/lib.rs`: invalid UTF-8 returns
before any dispatch; otherwise extract the optional numeric `value` and
dispatch on the topic. -/
def handle_publish (d : VictronData) (serial_number topic : String) (payload : Payload) : VictronData :=
  match payload with
  | .invalidUtf8 => d
  | p => dispatch d serial_number topic (decodeValue p)

/-- Boolean "starts with" on character lists. -/
def leadsWith : List Char → List Char → Bool
  | [], _ => true
  | _ :: _, [] => false
  | a :: p, b :: s => a = b && leadsWith p s

/-- A single optional field makes only the transitions
Unset → Value or Value → Value. -/
def evolves (a b : Option Rat) : Prop := a.isSome = true → b.isSome = true

/-- Every `AcSpec` field evolves. -/
def acEvolves (s t : AcSpec) : Prop :=
  evolves s.voltage t.voltage ∧ evolves s.power t.power ∧ evolves s.frequency t.frequency

/-- Every field of an optional `BatteryDC` record evolves (an absent
record counts as all-Unset). -/
def batEvolves (r t : Option BatteryDC) : Prop :=
  evolves (r.bind BatteryDC.dc_power) (t.bind BatteryDC.dc_power)
  ∧ evolves (r.bind BatteryDC.dc_current) (t.bind BatteryDC.dc_current)
  ∧ evolves (r.bind BatteryDC.dc_voltage) (t.bind BatteryDC.dc_voltage)
  ∧ evolves (r.bind BatteryDC.cell_min_voltage) (t.bind BatteryDC.cell_min_voltage)
  ∧ evolves (r.bind BatteryDC.cell_max_voltage) (t.bind BatteryDC.cell_max_voltage)
  ∧ evolves (r.bind BatteryDC.temperature) (t.bind BatteryDC.temperature)
  ∧ evolves (r.bind BatteryDC.soc) (t.bind BatteryDC.soc)
  ∧ evolves (r.bind BatteryDC.soh) (t.bind BatteryDC.soh)

/-- Every field of an optional `PvInverter` record evolves. -/
def pvEvolves (r t : Option PvInverter) : Prop :=
  evolves (r.bind PvInverter.power) (t.bind PvInverter.power)
  ∧ evolves (r.bind PvInverter.max_power) (t.bind PvInverter.max_power)
  ∧ evolves (r.bind PvInverter.total_energy) (t.bind PvInverter.total_energy)

/-- Every field of every entity of the whole store evolves: no field that
holds a value is reset to Unset. -/
def noUnsetReset (d t : VictronData) : Prop :=
  acEvolves d.ac_input t.ac_input
  ∧ acEvolves d.ac_output t.ac_output
  ∧ evolves d.ess.grid_setpoint t.ess.grid_setpoint
  ∧ (∀ k : Nat, batEvolves (lookupRecord d.batteries_dc k) (lookupRecord t.batteries_dc k))
  ∧ (∀ k : Nat, pvEvolves (lookupRecord d.pv_inverters k) (lookupRecord t.pv_inverters k))

/-- `true` exactly when the segment list matches none of the
`BatteryDC::handle_frame` patterns (the frame falls to its debug arm). -/
def batteryMiss (parts : List String) : Bool :=
  match parts with
  | ["Dc", "0", "Temperature"] | ["Dc", "0", "Power"] | ["Dc", "0", "Current"]
  | ["Dc", "0", "Voltage"] | ["System", "MinCellVoltage"] | ["System", "MaxCellVoltage"]
  | ["Soc"] | ["Soh"] => false
  | _ => true

/-- `true` exactly when the segment list matches none of the
`PvInverter::handle_frame` patterns. -/
def pvinverterMiss (parts : List String) : Bool :=
  match parts with
  | ["Ac", "Power"] | ["Ac", "MaxPower"] | ["Ac", "Energy", "Forward"] => false
  | _ => true

/-- Modelled from the spec (§4.6 Summary Aggregators): collect the
Some-values across all current entities and report Unset if none are
present, otherwise the sum; a missing field contributes nothing and is
never treated as zero. Stated independently of the code's
`filter_map`/`is_empty` shape, for comparison with it. -/
def sumOfPresent : List (Option Rat) → Option Rat
  | [] => none
  | none :: rest => sumOfPresent rest
  | some q :: rest =>
    match sumOfPresent rest with
    | none => some q
    | some acc => some (q + acc)

/-- The canonical decimal numeral of `n`, most significant digit first. -/
def natToDigitChars (n : Nat) : List Char :=
  ((Nat.digits 10 n).reverse).map (fun d => Char.ofNat (48 + d))

/-- The canonical decimal string of `n` (used to show every id up to
`65535` is reachable as a distinct map key). -/
def natToStr (n : Nat) : String :=
  if n = 0 then "0" else String.mk (natToDigitChars n)

/-! ### Helper lemmas about the map and string primitives -/

theorem lookup_updateEntry_self {β : Type} (m : List (Nat × β)) (k : Nat) (f : β → β) (dflt : β) :
    lookupRecord (updateEntry m k f dflt) k = some (f ((lookupRecord m k).getD dflt)) := by
  induction m with
  | nil => simp [lookupRecord, updateEntry]
  | cons hd tl ih =>
    obtain ⟨k0, v0⟩ := hd
    by_cases hk : k0 = k
    · simp [lookupRecord, updateEntry, hk]
    · simp [lookupRecord, updateEntry, hk, ih]

theorem lookup_updateEntry_ne {β : Type} (m : List (Nat × β)) (k j : Nat) (f : β → β) (dflt : β)
    (h : j ≠ k) : lookupRecord (updateEntry m k f dflt) j = lookupRecord m j := by
  have hkj : ¬ k = j := fun h2 => h h2.symm
  induction m with
  | nil => simp [lookupRecord, updateEntry, hkj]
  | cons hd tl ih =>
    obtain ⟨k0, v0⟩ := hd
    by_cases hk : k0 = k
    · subst hk
      simp [lookupRecord, updateEntry, hkj]
    · by_cases hj : k0 = j <;> simp [lookupRecord, updateEntry, hk, hj, ih, h, hkj]

theorem lookup_updateEntry_isSome {β : Type} (m : List (Nat × β)) (k j : Nat) (f : β → β)
    (dflt : β) (h : (lookupRecord m j).isSome) :
    (lookupRecord (updateEntry m k f dflt) j).isSome := by
  by_cases hj : j = k
  · subst hj
    rw [lookup_updateEntry_self]
    rfl
  · rw [lookup_updateEntry_ne m k j f dflt hj]
    exact h

theorem splitOnChar_ne_nil (sep : Char) (cs : List Char) : splitOnChar sep cs ≠ [] := by
  cases cs with
  | nil => simp [splitOnChar]
  | cons c rest =>
    rw [splitOnChar]
    by_cases h : c = sep
    · simp [h]
    · simp only [h, if_false]
      cases splitOnChar sep rest <;> simp

theorem splitOnChar_append_sep (sep : Char) (xs ys : List Char) :
    splitOnChar sep (xs ++ sep :: ys) = splitOnChar sep xs ++ splitOnChar sep ys := by
  induction xs with
  | nil => simp [splitOnChar]
  | cons c rest ih =>
    by_cases h : c = sep
    · simp [splitOnChar, h, ih]
    · rw [List.cons_append, splitOnChar, ih, splitOnChar]
      simp only [h, if_false]
      have h1 := splitOnChar_ne_nil sep rest
      cases hrest : splitOnChar sep rest with
      | nil => exact absurd hrest h1
      | cons a b => simp

theorem splitOnChar_no_sep (sep : Char) (xs : List Char) (h : ∀ c ∈ xs, ¬ c = sep) :
    splitOnChar sep xs = [xs] := by
  induction xs with
  | nil => simp [splitOnChar]
  | cons c rest ih =>
    have hc : ¬ c = sep := h c (List.mem_cons_self c rest)
    have hrest : splitOnChar sep rest = [rest] := ih (fun x hx => h x (List.mem_cons_of_mem c hx))
    simp [splitOnChar, hc, hrest]

theorem dropLeading?_append (p s : List Char) : dropLeading? p (p ++ s) = some s := by
  induction p with
  | nil => simp [dropLeading?]
  | cons c rest ih => simp [dropLeading?, ih]

/-- Splitting the topic suffix `battery/<seg>/<tail>` when the id segment
holds no separator. -/
theorem splitOnChar_head_seg (hd seg : String) (tail : List Char)
    (hhd : ∀ c ∈ hd.data, ¬ c = '/') (hseg : ∀ c ∈ seg.data, ¬ c = '/') :
    splitOnChar '/' (hd.data ++ '/' :: (seg.data ++ '/' :: tail))
      = hd.data :: seg.data :: splitOnChar '/' tail := by
  rw [splitOnChar_append_sep, splitOnChar_append_sep,
    splitOnChar_no_sep _ _ hhd, splitOnChar_no_sep _ _ hseg]
  simp

theorem dropLeading?_eq_none (p s : List Char) (h : leadsWith p s = false) :
    dropLeading? p s = none := by
  induction p generalizing s with
  | nil => simp [leadsWith] at h
  | cons a p ih =>
    cases s with
    | nil => rfl
    | cons b s =>
      by_cases hab : a = b
      · simp [leadsWith, hab] at h
        simp [dropLeading?, hab, ih s h]
      · simp [dropLeading?, hab]

/-! ### Reduction lemmas for `route`, `dispatch` and `handle_publish` -/

theorem route_ac_active_in (d : VictronData) (rest : List String) (value : Option Rat) :
    route d ("vebus" :: "275" :: "Ac" :: "ActiveIn" :: rest) value
      = { d with ac_input := d.ac_input.handle_frame rest value } := rfl

theorem route_ac_out (d : VictronData) (rest : List String) (value : Option Rat) :
    route d ("vebus" :: "275" :: "Ac" :: "Out" :: rest) value
      = { d with ac_output := d.ac_output.handle_frame rest value } := rfl

theorem route_battery (d : VictronData) (seg : String) (rest : List String) (value : Option Rat) :
    route d ("battery" :: seg :: rest) value
      = { d with batteries_dc := (updateEntry d.batteries_dc ((parseU16 seg).getD 0)
            (fun b => b.handle_frame rest value) BatteryDC.init) } := rfl

theorem route_pvinverter (d : VictronData) (seg : String) (rest : List String) (value : Option Rat) :
    route d ("pvinverter" :: seg :: rest) value
      = { d with pv_inverters := (updateEntry d.pv_inverters ((parseU16 seg).getD 0)
            (fun p => p.handle_frame rest value) PvInverter.init) } := rfl

theorem route_hub4 (d : VictronData) (rest : List String) (value : Option Rat) :
    route d ("vebus" :: "275" :: "Hub4" :: rest) value
      = { d with ess := d.ess.handle_frame rest value } := rfl

/-- A topic of the form `N/<S>/<hd>/<seg>/<tail>` dispatches to `route`
with parts `hd :: seg :: split(tail)`, provided `hd` and `seg` hold no
separator and the payload survived the UTF-8 check. -/
theorem handle_publish_two_seg (d : VictronData) (S hd seg tail : String) (p : Payload)
    (hp : ¬ p = Payload.invalidUtf8)
    (hhd : ∀ c ∈ hd.data, ¬ c = '/') (hseg : ∀ c ∈ seg.data, ¬ c = '/') :
    handle_publish d S ("N/" ++ S ++ "/" ++ hd ++ "/" ++ seg ++ "/" ++ tail) p
      = route d (hd :: seg :: (splitOnChar '/' tail.data).map String.mk) (decodeValue p) := by
  have hdata : ("N/" ++ S ++ "/" ++ hd ++ "/" ++ seg ++ "/" ++ tail).data
      = ("N/" ++ S ++ "/").data ++ (hd.data ++ '/' :: (seg.data ++ '/' :: tail.data)) := by
    simp [String.data_append]
  have hdisp : dispatch d S ("N/" ++ S ++ "/" ++ hd ++ "/" ++ seg ++ "/" ++ tail) (decodeValue p)
      = route d (hd :: seg :: (splitOnChar '/' tail.data).map String.mk) (decodeValue p) := by
    unfold dispatch
    rw [hdata, dropLeading?_append]
    show route d ((splitOnChar '/' (hd.data ++ '/' :: (seg.data ++ '/' :: tail.data))).map
      String.mk) (decodeValue p) = _
    rw [splitOnChar_head_seg hd seg tail.data hhd hseg]
    rfl
  cases p with
  | invalidUtf8 => exact absurd rfl hp
  | invalidJson => exact hdisp
  | json j => exact hdisp

/-- A topic of the form `N/<S>/<suffix>` dispatches to `route` on the
split suffix whenever the payload survived the UTF-8 check. -/
theorem handle_publish_suffix (d : VictronData) (S suffix : String) (p : Payload)
    (hp : ¬ p = Payload.invalidUtf8) :
    handle_publish d S ("N/" ++ S ++ "/" ++ suffix) p
      = route d ((splitOnChar '/' suffix.data).map String.mk) (decodeValue p) := by
  have hdata : ("N/" ++ S ++ "/" ++ suffix).data
      = ("N/" ++ S ++ "/").data ++ suffix.data := by
    simp [String.data_append]
  have hdisp : dispatch d S ("N/" ++ S ++ "/" ++ suffix) (decodeValue p)
      = route d ((splitOnChar '/' suffix.data).map String.mk) (decodeValue p) := by
    unfold dispatch
    rw [hdata, dropLeading?_append]
  cases p with
  | invalidUtf8 => exact absurd rfl hp
  | invalidJson => exact hdisp
  | json j => exact hdisp

/-- An unmatched suffix falls to the debug arm of
`BatteryDC::handle_frame` and leaves the record unchanged. -/
theorem battery_frame_miss (b : BatteryDC) (parts : List String) (v : Option Rat)
    (h : batteryMiss parts = true) : b.handle_frame parts v = b := by
  unfold BatteryDC.handle_frame
  split <;> first | rfl | (exfalso; simp [batteryMiss] at h)

/-- An unmatched suffix falls to the debug arm of
`PvInverter::handle_frame` and leaves the record unchanged. -/
theorem pvinverter_frame_miss (p : PvInverter) (parts : List String) (v : Option Rat)
    (h : pvinverterMiss parts = true) : p.handle_frame parts v = p := by
  unfold PvInverter.handle_frame
  split <;> first | rfl | (exfalso; simp [pvinverterMiss] at h)

/-- Dispatching any frame keeps every battery key that is already
present. -/
theorem route_batteries_isSome (d : VictronData) (parts : List String) (value : Option Rat)
    (j : Nat) (h : (lookupRecord d.batteries_dc j).isSome = true) :
    (lookupRecord (route d parts value).batteries_dc j).isSome = true := by
  unfold route
  split <;> first
    | exact h
    | exact lookup_updateEntry_isSome _ _ _ _ _ h

/-- Dispatching any frame keeps every inverter key that is already
present. -/
theorem route_pv_isSome (d : VictronData) (parts : List String) (value : Option Rat)
    (j : Nat) (h : (lookupRecord d.pv_inverters j).isSome = true) :
    (lookupRecord (route d parts value).pv_inverters j).isSome = true := by
  unfold route
  split <;> first
    | exact h
    | exact lookup_updateEntry_isSome _ _ _ _ _ h

/-- Processing any frame keeps every battery key already present. -/
theorem handle_publish_batteries_isSome (d : VictronData) (S topic : String) (p : Payload)
    (j : Nat) (h : (lookupRecord d.batteries_dc j).isSome = true) :
    (lookupRecord (handle_publish d S topic p).batteries_dc j).isSome = true := by
  have hdisp : ∀ value, (lookupRecord (dispatch d S topic value).batteries_dc j).isSome = true := by
    intro value
    unfold dispatch
    cases dropLeading? ("N/" ++ S ++ "/").data topic.data with
    | none => exact h
    | some suffixChars => exact route_batteries_isSome d _ value j h
  cases p with
  | invalidUtf8 => exact h
  | invalidJson => exact hdisp none
  | json _ => exact hdisp _

/-- Processing any frame keeps every inverter key already present. -/
theorem handle_publish_pv_isSome (d : VictronData) (S topic : String) (p : Payload)
    (j : Nat) (h : (lookupRecord d.pv_inverters j).isSome = true) :
    (lookupRecord (handle_publish d S topic p).pv_inverters j).isSome = true := by
  have hdisp : ∀ value, (lookupRecord (dispatch d S topic value).pv_inverters j).isSome = true := by
    intro value
    unfold dispatch
    cases dropLeading? ("N/" ++ S ++ "/").data topic.data with
    | none => exact h
    | some suffixChars => exact route_pv_isSome d _ value j h
  cases p with
  | invalidUtf8 => exact h
  | invalidJson => exact hdisp none
  | json _ => exact hdisp _

/-! ### Idempotence of frame application -/

theorem acspec_frame_idem (s : AcSpec) (parts : List String) (v : Option Rat) :
    (s.handle_frame parts v).handle_frame parts v = s.handle_frame parts v := by
  unfold AcSpec.handle_frame
  split <;> try rfl
  split <;> simp_all

theorem battery_frame_idem (b : BatteryDC) (parts : List String) (v : Option Rat) :
    (b.handle_frame parts v).handle_frame parts v = b.handle_frame parts v := by
  unfold BatteryDC.handle_frame
  split <;> try rfl
  split <;> simp_all

theorem ess_frame_idem (e : Ess) (parts : List String) (v : Option Rat) :
    (e.handle_frame parts v).handle_frame parts v = e.handle_frame parts v := by
  unfold Ess.handle_frame
  split <;> try rfl
  split <;> simp_all

theorem pvinverter_frame_idem (p : PvInverter) (parts : List String) (v : Option Rat) :
    (p.handle_frame parts v).handle_frame parts v = p.handle_frame parts v := by
  unfold PvInverter.handle_frame
  split <;> try rfl
  split <;> simp_all

theorem updateEntry_idem {β : Type} (m : List (Nat × β)) (k : Nat) (f : β → β) (dflt : β)
    (hf : ∀ b, f (f b) = f b) :
    updateEntry (updateEntry m k f dflt) k f dflt = updateEntry m k f dflt := by
  induction m with
  | nil => simp [updateEntry, hf]
  | cons hd tl ih =>
    obtain ⟨k0, v0⟩ := hd
    by_cases hk : k0 = k <;> simp [updateEntry, hk, hf, ih]

theorem route_idem (d : VictronData) (parts : List String) (value : Option Rat) :
    route (route d parts value) parts value = route d parts value := by
  unfold route
  split
  · simp [acspec_frame_idem]
  · simp [acspec_frame_idem]
  · simp only []
    rw [updateEntry_idem]
    intro b
    exact battery_frame_idem b _ _
  · simp only []
    rw [updateEntry_idem]
    intro p
    exact pvinverter_frame_idem p _ _
  · simp [ess_frame_idem]
  · split <;> simp_all

theorem dispatch_idem (d : VictronData) (S topic : String) (value : Option Rat) :
    dispatch (dispatch d S topic value) S topic value = dispatch d S topic value := by
  unfold dispatch
  cases h : dropLeading? ("N/" ++ S ++ "/").data topic.data with
  | none => rfl
  | some suffixChars => exact route_idem d _ value

theorem handle_publish_idem (d : VictronData) (S topic : String) (p : Payload) :
    handle_publish (handle_publish d S topic p) S topic p = handle_publish d S topic p := by
  cases p with
  | invalidUtf8 => rfl
  | invalidJson => exact dispatch_idem d S topic none
  | json j => exact dispatch_idem d S topic _

/-! ### Field evolution: a field never falls back from `some` to `none` -/

theorem evolves_refl (a : Option Rat) : evolves a a := fun h => h

theorem evolves_some (a : Option Rat) (v : Rat) : evolves a (some v) := fun _ => rfl

theorem acEvolves_refl (s : AcSpec) : acEvolves s s :=
  ⟨evolves_refl _, evolves_refl _, evolves_refl _⟩

theorem batEvolves_refl (r : Option BatteryDC) : batEvolves r r :=
  ⟨evolves_refl _, evolves_refl _, evolves_refl _, evolves_refl _,
   evolves_refl _, evolves_refl _, evolves_refl _, evolves_refl _⟩

theorem pvEvolves_refl (r : Option PvInverter) : pvEvolves r r :=
  ⟨evolves_refl _, evolves_refl _, evolves_refl _⟩

theorem noUnsetReset_refl (d : VictronData) : noUnsetReset d d :=
  ⟨acEvolves_refl _, acEvolves_refl _, evolves_refl _,
   fun _ => batEvolves_refl _, fun _ => pvEvolves_refl _⟩

theorem acEvolves_handle_frame (s : AcSpec) (parts : List String) (v : Rat) :
    acEvolves s (s.handle_frame parts (some v)) := by
  unfold AcSpec.handle_frame
  split <;> exact ⟨by first | exact evolves_refl _ | exact evolves_some _ v,
    by first | exact evolves_refl _ | exact evolves_some _ v,
    by first | exact evolves_refl _ | exact evolves_some _ v⟩

theorem batEvolves_handle_frame (r : Option BatteryDC) (parts : List String) (v : Rat) :
    batEvolves r (some ((r.getD BatteryDC.init).handle_frame parts (some v))) := by
  cases r with
  | none =>
    refine ⟨?_, ?_, ?_, ?_, ?_, ?_, ?_, ?_⟩ <;> exact fun h => by simp at h
  | some b =>
    unfold BatteryDC.handle_frame
    simp only [Option.getD_some, Option.bind_some]
    split <;>
      refine ⟨?_, ?_, ?_, ?_, ?_, ?_, ?_, ?_⟩ <;>
        first | exact evolves_refl _ | exact evolves_some _ v

theorem pvEvolves_handle_frame (r : Option PvInverter) (parts : List String) (v : Rat) :
    pvEvolves r (some ((r.getD PvInverter.init).handle_frame parts (some v))) := by
  cases r with
  | none =>
    refine ⟨?_, ?_, ?_⟩ <;> exact fun h => by simp at h
  | some p =>
    unfold PvInverter.handle_frame
    simp only [Option.getD_some, Option.bind_some]
    split <;>
      refine ⟨?_, ?_, ?_⟩ <;>
        first | exact evolves_refl _ | exact evolves_some _ v

theorem essEvolves_handle_frame (e : Ess) (parts : List String) (v : Rat) :
    evolves e.grid_setpoint ((e.handle_frame parts (some v)).grid_setpoint) := by
  unfold Ess.handle_frame
  split
  · exact evolves_some _ v
  · exact evolves_refl _

/-- Applying any frame whose value decoded to a real number never resets a
field of the store. -/
theorem route_noUnsetReset (d : VictronData) (parts : List String) (v : Rat) :
    noUnsetReset d (route d parts (some v)) := by
  unfold route
  split
  · exact ⟨acEvolves_handle_frame _ _ v, acEvolves_refl _, evolves_refl _,
      fun _ => batEvolves_refl _, fun _ => pvEvolves_refl _⟩
  · exact ⟨acEvolves_refl _, acEvolves_handle_frame _ _ v, evolves_refl _,
      fun _ => batEvolves_refl _, fun _ => pvEvolves_refl _⟩
  · refine ⟨acEvolves_refl _, acEvolves_refl _, evolves_refl _, fun k => ?_,
      fun _ => pvEvolves_refl _⟩
    rename_i _ id rest
    by_cases hk : k = (parseU16 id).getD 0
    · subst hk
      rw [lookup_updateEntry_self]
      exact batEvolves_handle_frame _ rest v
    · rw [lookup_updateEntry_ne _ _ _ _ _ hk]
      exact batEvolves_refl _
  · refine ⟨acEvolves_refl _, acEvolves_refl _, evolves_refl _,
      fun _ => batEvolves_refl _, fun k => ?_⟩
    rename_i _ id rest
    by_cases hk : k = (parseU16 id).getD 0
    · subst hk
      rw [lookup_updateEntry_self]
      exact pvEvolves_handle_frame _ rest v
    · rw [lookup_updateEntry_ne _ _ _ _ _ hk]
      exact pvEvolves_refl _
  · exact ⟨acEvolves_refl _, acEvolves_refl _, essEvolves_handle_frame _ _ v,
      fun _ => batEvolves_refl _, fun _ => pvEvolves_refl _⟩
  · exact noUnsetReset_refl d

/-! ### Summary aggregators versus the spec-side reducer -/

theorem sumOfPresent_eq (xs : List (Option Rat)) :
    sumOfPresent xs
      = (if (xs.filterMap id).isEmpty then none else some (xs.filterMap id).sum) := by
  induction xs with
  | nil => rfl
  | cons hd rest ih =>
    cases hd with
    | none => simpa [sumOfPresent] using ih
    | some q =>
      rw [sumOfPresent, ih]
      by_cases h : (rest.filterMap id).isEmpty
      · have h2 : rest.filterMap id = [] := by simpa [List.isEmpty_iff] using h
        simp [h2]
      · have h2 : ¬ rest.filterMap id = [] := by simpa [List.isEmpty_iff] using h
        simp [h, h2, List.isEmpty_iff]

theorem total_power_from_batteries (batts : List BatteryDC) :
    (BatterySummary.from_batteries batts).total_power
      = sumOfPresent (batts.map BatteryDC.dc_power) := by
  rw [sumOfPresent_eq]
  unfold BatterySummary.from_batteries
  simp [List.filterMap_map, Function.comp]

theorem total_power_from_pv_inverters (invs : List PvInverter) :
    (PvInverterSummary.from_pv_inverters invs).total_power
      = sumOfPresent (invs.map PvInverter.power) := by
  rw [sumOfPresent_eq]
  unfold PvInverterSummary.from_pv_inverters
  simp [List.filterMap_map, Function.comp]

/-! ### The `u16` id parser -/

theorem parseDigitsVal_le (cs : List Char) (n : Nat) (h : parseDigitsVal cs = some n) :
    n ≤ 65535 := by
  unfold parseDigitsVal at h
  split at h
  · simp at h
  · split at h
    · dsimp only [] at h
      split at h
      · rename_i hlt
        obtain rfl : _ = n := Option.some.inj h
        omega
      · simp at h
    · simp at h

theorem parseU16_le (s : String) (n : Nat) (h : parseU16 s = some n) : n ≤ 65535 :=
  parseDigitsVal_le _ n h

theorem foldl_digits_eq_ofDigits (ds : List Nat) (a : Nat) :
    ds.foldl (fun x d => x * 10 + d) a
      = a * 10 ^ ds.length + Nat.ofDigits 10 ds.reverse := by
  induction ds generalizing a with
  | nil => simp [Nat.ofDigits]
  | cons d ds ih =>
    rw [List.foldl_cons, ih, List.reverse_cons, Nat.ofDigits_append]
    simp [Nat.ofDigits]
    ring

theorem fold_chars_eq (ds : List Nat) (a : Nat) (hds : ∀ d ∈ ds, d < 10) :
    (ds.map (fun d => Char.ofNat (48 + d))).foldl (fun x c => x * 10 + (c.toNat - 48)) a
      = ds.foldl (fun x d => x * 10 + d) a := by
  induction ds generalizing a with
  | nil => rfl
  | cons d ds ih =>
    have hd : d < 10 := hds d (List.mem_cons_self d ds)
    have hchar : (Char.ofNat (48 + d)).toNat - 48 = d := by
      interval_cases d <;> decide
    rw [List.map_cons, List.foldl_cons, List.foldl_cons, hchar]
    exact ih _ (fun x hx => hds x (List.mem_cons_of_mem d hx))

theorem all_digit_chars (ds : List Nat) (h : ∀ d ∈ ds, d < 10) :
    (ds.map (fun d => Char.ofNat (48 + d))).all isAsciiDigit = true := by
  rw [List.all_eq_true]
  intro c hc
  obtain ⟨d, hd, rfl⟩ := List.mem_map.mp hc
  have hlt : d < 10 := h d hd
  interval_cases d <;> decide

theorem stripPlus_of_head_ne (c : Char) (cs : List Char) (h : ¬ c = '+') :
    stripPlus (c :: cs) = c :: cs := by
  unfold stripPlus
  split
  · rename_i heq
    exact absurd (List.head_eq_of_cons_eq heq) h
  · rfl

theorem parseDigitsVal_digits (ds : List Nat) (hne : ¬ ds = []) (hlt : ∀ d ∈ ds, d < 10)
    (hval : ds.foldl (fun x d => x * 10 + d) 0 < 65536) :
    parseDigitsVal (ds.map (fun d => Char.ofNat (48 + d)))
      = some (ds.foldl (fun x d => x * 10 + d) 0) := by
  have h1 : (ds.map (fun d => Char.ofNat (48 + d))).isEmpty = false := by
    simp [List.isEmpty_iff, hne]
  unfold parseDigitsVal
  rw [h1, all_digit_chars ds hlt]
  simp only [Bool.false_eq_true, if_false, if_true]
  rw [fold_chars_eq ds 0 hlt, if_pos hval]

/-- The canonical decimal string of an id below `2^16` parses back to that
id: every such id is reachable as its own map key. -/
theorem parseU16_natToStr (n : Nat) (hn : n < 65536) : parseU16 (natToStr n) = some n := by
  by_cases h0 : n = 0
  · subst h0
    decide
  · have hlt : ∀ d ∈ (Nat.digits 10 n).reverse, d < 10 := fun d hd =>
      Nat.digits_lt_base (by norm_num) (List.mem_reverse.mp hd)
    have hval : ((Nat.digits 10 n).reverse).foldl (fun x d => x * 10 + d) 0 = n := by
      rw [foldl_digits_eq_ofDigits, List.reverse_reverse, Nat.ofDigits_digits]
      simp
    obtain ⟨d, tail, hds⟩ : ∃ d tail, (Nat.digits 10 n).reverse = d :: tail := by
      cases hrev : (Nat.digits 10 n).reverse with
      | nil =>
        exfalso
        rw [List.reverse_eq_nil_iff] at hrev
        exact Nat.digits_ne_nil_iff_ne_zero.mpr h0 hrev
      | cons d tail => exact ⟨d, tail, rfl⟩
    have hd10 : d < 10 := hlt d (by rw [hds]; exact List.mem_cons_self d tail)
    have hplus : ¬ Char.ofNat (48 + d) = '+' := by
      interval_cases d <;> decide
    unfold natToStr
    rw [if_neg h0]
    unfold parseU16 natToDigitChars
    show parseDigitsVal (stripPlus (((Nat.digits 10 n).reverse).map
      (fun d => Char.ofNat (48 + d)))) = some n
    rw [hds, List.map_cons, stripPlus_of_head_ne _ _ hplus]
    have hfin := parseDigitsVal_digits (d :: tail) (by simp)
      (by rw [← hds]; exact hlt) (by rw [← hds, hval]; exact hn)
    rw [List.map_cons] at hfin
    have hfoldn : List.foldl (fun x d => x * 10 + d) 0 (d :: tail) = n := by
      rw [← hds]
      exact hval
    rw [hfoldn] at hfin
    exact hfin

/-! ### The claims -/

/-- C6: frame application is idempotent — for every starting state, every
topic, and every payload, processing the identical (topic, payload) frame
twice in succession yields exactly the same state as processing it
once. -/
theorem claim_C6 (d : VictronData) (S topic : String) (p : Payload) :
    handle_publish (handle_publish d S topic p) S topic p = handle_publish d S topic p :=
  handle_publish_idem d S topic p

/-- C5: a topic that does not start with the literal `N/<S>/` never
mutates the device state, for any serial `S` and any payload. -/
theorem claim_C5 (d : VictronData) (S topic : String) (p : Payload)
    (h : leadsWith ("N/" ++ S ++ "/").data topic.data = false) :
    handle_publish d S topic p = d := by
  have hdisp : ∀ value, dispatch d S topic value = d := by
    intro value
    unfold dispatch
    rw [dropLeading?_eq_none _ _ h]
  cases p with
  | invalidUtf8 => rfl
  | invalidJson => exact hdisp none
  | json j => exact hdisp _

theorem claim_C5_witness :
    leadsWith ("N/" ++ "S" ++ "/").data ("R/S/keepalive").data = false
    ∧ handle_publish VictronData.init "S" "R/S/keepalive" Payload.invalidJson
        = VictronData.init :=
  ⟨by decide, claim_C5 VictronData.init "S" "R/S/keepalive" Payload.invalidJson (by decide)⟩

/-- C3: both total-power summaries equal the sum of exactly the
Some-valued power fields of the current records (Unset records contribute
nothing) and are Unset, not zero, when no record has a Some-valued power
field; in particular inverters `{20: 100, 21: Unset, 22: 50}` total 150. -/
theorem claim_C3 (batts : List BatteryDC) (invs : List PvInverter) :
    (BatterySummary.from_batteries batts).total_power
      = sumOfPresent (batts.map BatteryDC.dc_power)
    ∧ (PvInverterSummary.from_pv_inverters invs).total_power
      = sumOfPresent (invs.map PvInverter.power)
    ∧ (PvInverterSummary.from_pv_inverters
        [⟨some 100, none, none⟩, ⟨none, none, none⟩, ⟨some 50, none, none⟩]).total_power
      = some 150
    ∧ (PvInverterSummary.from_pv_inverters
        [⟨none, none, none⟩, ⟨none, none, none⟩]).total_power = none
    ∧ (BatterySummary.from_batteries [BatteryDC.init]).total_power = none :=
  ⟨total_power_from_batteries batts, total_power_from_pv_inverters invs,
   by norm_num [PvInverterSummary.from_pv_inverters, List.filterMap],
   by norm_num [PvInverterSummary.from_pv_inverters, List.filterMap],
   by norm_num [BatterySummary.from_batteries, List.filterMap, BatteryDC.init]⟩

/-- C1 counterexample: the claim fails on the code. With battery 512
holding `dc_power = Some 1`, the frame on its own power topic whose
payload fails to decode as JSON is dispatched with value Unset and resets
the field: the Value → Unset transition the claim rules out happens. -/
theorem claim_C1_counterexample :
    ¬ noUnsetReset
        ⟨AcSpec.init, AcSpec.init, Ess.init,
          [(512, { BatteryDC.init with dc_power := some 1 })], []⟩
        (handle_publish
          ⟨AcSpec.init, AcSpec.init, Ess.init,
            [(512, { BatteryDC.init with dc_power := some 1 })], []⟩
          "S" "N/S/battery/512/Dc/0/Power" Payload.invalidJson) := by
  intro h
  have h2 := (h.2.2.2.1 512).1 (by decide)
  revert h2
  decide

/-- C1 amended: every field of every entity transitions only
Unset → Value or Value → Value whenever the payload either fails the
UTF-8 check (the frame is dropped) or decodes to a numeric `value`; a
payload that parses as JSON without a numeric `value` member — or is not
valid JSON at all — is applied as Unset and may reset a matched field. -/
theorem claim_C1_amended (d : VictronData) (S topic : String) (p : Payload)
    (h : p = Payload.invalidUtf8 ∨ (decodeValue p).isSome = true) :
    noUnsetReset d (handle_publish d S topic p) := by
  rcases h with h | h
  · subst h
    exact noUnsetReset_refl d
  · cases p with
    | invalidUtf8 => exact noUnsetReset_refl d
    | invalidJson => simp [decodeValue] at h
    | json j =>
      obtain ⟨v, hv⟩ := Option.isSome_iff_exists.mp h
      show noUnsetReset d (dispatch d S topic (decodeValue (Payload.json j)))
      unfold dispatch
      cases dropLeading? ("N/" ++ S ++ "/").data topic.data with
      | none => exact noUnsetReset_refl d
      | some suffixChars =>
        rw [show decodeValue (Payload.json j) = some v from hv]
        exact route_noUnsetReset d _ v

theorem claim_C1_amended_witness :
    (decodeValue (Payload.json (Json.obj [("value", Json.num 7)]))).isSome = true
    ∧ noUnsetReset
        ⟨AcSpec.init, AcSpec.init, Ess.init,
          [(512, { BatteryDC.init with dc_power := some 1 })], []⟩
        (handle_publish
          ⟨AcSpec.init, AcSpec.init, Ess.init,
            [(512, { BatteryDC.init with dc_power := some 1 })], []⟩
          "S" "N/S/battery/512/Dc/0/Power"
          (Payload.json (Json.obj [("value", Json.num 7)]))) :=
  ⟨rfl, claim_C1_amended _ "S" "N/S/battery/512/Dc/0/Power" _ (Or.inr rfl)⟩

/-- C2: for every serial `S`, id segment, and numeric `v`, processing the
frame `N/<S>/battery/<id>/Dc/0/Power` with payload `{"value": v}` sets
`dc_power` of the battery record for that id to `Some v` and changes
nothing else: the record's other fields, every other battery record, both
AC records, the ESS record and the inverter map are untouched. -/
theorem claim_C2 (d : VictronData) (S seg : String) (v : Rat) (j : Nat)
    (hseg : ∀ c ∈ seg.data, ¬ c = '/')
    (hj : ¬ j = (parseU16 seg).getD 0) :
    let d2 := handle_publish d S ("N/" ++ S ++ "/" ++ "battery" ++ "/" ++ seg ++ "/" ++ "Dc/0/Power")
      (Payload.json (Json.obj [("value", Json.num v)]))
    lookupRecord d2.batteries_dc ((parseU16 seg).getD 0)
      = some { (lookupRecord d.batteries_dc ((parseU16 seg).getD 0)).getD BatteryDC.init with
          dc_power := some v }
    ∧ lookupRecord d2.batteries_dc j = lookupRecord d.batteries_dc j
    ∧ d2.ac_input = d.ac_input
    ∧ d2.ac_output = d.ac_output
    ∧ d2.ess = d.ess
    ∧ d2.pv_inverters = d.pv_inverters := by
  intro d2
  have hpub : d2 = route d ("battery" :: seg :: ["Dc", "0", "Power"])
      (decodeValue (Payload.json (Json.obj [("value", Json.num v)]))) := by
    show handle_publish _ _ _ _ = _
    rw [handle_publish_two_seg d S "battery" seg "Dc/0/Power" _ (by intro hc; cases hc)
      (by decide) hseg]
    rfl
  have hval : decodeValue (Payload.json (Json.obj [("value", Json.num v)])) = some v := rfl
  rw [hpub, hval, route_battery]
  refine ⟨?_, ?_, rfl, rfl, rfl, rfl⟩
  · rw [lookup_updateEntry_self]
    rfl
  · exact lookup_updateEntry_ne _ _ _ _ _ hj

theorem claim_C2_witness :
    (∀ c ∈ ("512" : String).data, ¬ c = '/')
    ∧ ¬ (7 : Nat) = (parseU16 "512").getD 0
    ∧ (let d2 := handle_publish VictronData.init "S"
        ("N/" ++ "S" ++ "/" ++ "battery" ++ "/" ++ "512" ++ "/" ++ "Dc/0/Power")
        (Payload.json (Json.obj [("value", Json.num 42)]))
      lookupRecord d2.batteries_dc ((parseU16 "512").getD 0)
        = some { (lookupRecord VictronData.init.batteries_dc ((parseU16 "512").getD 0)).getD
            BatteryDC.init with dc_power := some 42 }
      ∧ lookupRecord d2.batteries_dc 7 = lookupRecord VictronData.init.batteries_dc 7
      ∧ d2.ac_input = VictronData.init.ac_input
      ∧ d2.ac_output = VictronData.init.ac_output
      ∧ d2.ess = VictronData.init.ess
      ∧ d2.pv_inverters = VictronData.init.pv_inverters) :=
  ⟨by decide, by decide,
   claim_C2 VictronData.init "S" "512" 42 7 (by decide) (by decide)⟩

/-- C4: a frame addressed to a battery or inverter id not yet in the map
creates the record as all-Unset defaults and then applies the field update
to it (so the result at that key is `handle_frame` of the default record);
and a key already present in either map survives processing any frame. -/
theorem claim_C4 (d : VictronData) (S seg tailB tailP t : String) (p : Payload) (j jp : Nat)
    (hp : ¬ p = Payload.invalidUtf8)
    (hseg : ∀ c ∈ seg.data, ¬ c = '/')
    (hnewB : lookupRecord d.batteries_dc ((parseU16 seg).getD 0) = none)
    (hnewP : lookupRecord d.pv_inverters ((parseU16 seg).getD 0) = none)
    (hj : (lookupRecord d.batteries_dc j).isSome = true)
    (hjp : (lookupRecord d.pv_inverters jp).isSome = true) :
    lookupRecord
        (handle_publish d S ("N/" ++ S ++ "/" ++ "battery" ++ "/" ++ seg ++ "/" ++ tailB)
          p).batteries_dc ((parseU16 seg).getD 0)
      = some (BatteryDC.init.handle_frame ((splitOnChar '/' tailB.data).map String.mk)
          (decodeValue p))
    ∧ lookupRecord
        (handle_publish d S ("N/" ++ S ++ "/" ++ "pvinverter" ++ "/" ++ seg ++ "/" ++ tailP)
          p).pv_inverters ((parseU16 seg).getD 0)
      = some (PvInverter.init.handle_frame ((splitOnChar '/' tailP.data).map String.mk)
          (decodeValue p))
    ∧ (lookupRecord (handle_publish d S t p).batteries_dc j).isSome = true
    ∧ (lookupRecord (handle_publish d S t p).pv_inverters jp).isSome = true := by
  refine ⟨?_, ?_, handle_publish_batteries_isSome d S t p j hj,
    handle_publish_pv_isSome d S t p jp hjp⟩
  · rw [handle_publish_two_seg d S "battery" seg tailB p hp (by decide) hseg, route_battery]
    show lookupRecord
        (updateEntry d.batteries_dc ((parseU16 seg).getD 0)
          (fun b => b.handle_frame ((splitOnChar '/' tailB.data).map String.mk) (decodeValue p))
          BatteryDC.init) ((parseU16 seg).getD 0) = _
    rw [lookup_updateEntry_self, hnewB]
    rfl
  · rw [handle_publish_two_seg d S "pvinverter" seg tailP p hp (by decide) hseg,
      route_pvinverter]
    show lookupRecord
        (updateEntry d.pv_inverters ((parseU16 seg).getD 0)
          (fun q => q.handle_frame ((splitOnChar '/' tailP.data).map String.mk) (decodeValue p))
          PvInverter.init) ((parseU16 seg).getD 0) = _
    rw [lookup_updateEntry_self, hnewP]
    rfl

theorem claim_C4_witness :
    ¬ (Payload.json (Json.obj [("value", Json.num 5)])) = Payload.invalidUtf8
    ∧ (∀ c ∈ ("512" : String).data, ¬ c = '/')
    ∧ lookupRecord (⟨AcSpec.init, AcSpec.init, Ess.init, [(7, BatteryDC.init)],
        [(3, PvInverter.init)]⟩ : VictronData).batteries_dc ((parseU16 "512").getD 0) = none
    ∧ lookupRecord (⟨AcSpec.init, AcSpec.init, Ess.init, [(7, BatteryDC.init)],
        [(3, PvInverter.init)]⟩ : VictronData).pv_inverters ((parseU16 "512").getD 0) = none
    ∧ (lookupRecord (⟨AcSpec.init, AcSpec.init, Ess.init, [(7, BatteryDC.init)],
        [(3, PvInverter.init)]⟩ : VictronData).batteries_dc 7).isSome = true
    ∧ (lookupRecord (⟨AcSpec.init, AcSpec.init, Ess.init, [(7, BatteryDC.init)],
        [(3, PvInverter.init)]⟩ : VictronData).pv_inverters 3).isSome = true
    ∧ lookupRecord
        (handle_publish (⟨AcSpec.init, AcSpec.init, Ess.init, [(7, BatteryDC.init)],
            [(3, PvInverter.init)]⟩ : VictronData) "S"
          ("N/" ++ "S" ++ "/" ++ "battery" ++ "/" ++ "512" ++ "/" ++ "Soc")
          (Payload.json (Json.obj [("value", Json.num 5)]))).batteries_dc
        ((parseU16 "512").getD 0)
      = some (BatteryDC.init.handle_frame ((splitOnChar '/' ("Soc" : String).data).map String.mk)
          (decodeValue (Payload.json (Json.obj [("value", Json.num 5)]))))
    ∧ lookupRecord
        (handle_publish (⟨AcSpec.init, AcSpec.init, Ess.init, [(7, BatteryDC.init)],
            [(3, PvInverter.init)]⟩ : VictronData) "S"
          ("N/" ++ "S" ++ "/" ++ "pvinverter" ++ "/" ++ "512" ++ "/" ++ "Ac/Power")
          (Payload.json (Json.obj [("value", Json.num 5)]))).pv_inverters
        ((parseU16 "512").getD 0)
      = some (PvInverter.init.handle_frame
          ((splitOnChar '/' ("Ac/Power" : String).data).map String.mk)
          (decodeValue (Payload.json (Json.obj [("value", Json.num 5)]))))
    ∧ (lookupRecord
        (handle_publish (⟨AcSpec.init, AcSpec.init, Ess.init, [(7, BatteryDC.init)],
            [(3, PvInverter.init)]⟩ : VictronData) "S" "N/S/vebus/275/Hub4/L1/AcPowerSetpoint"
          (Payload.json (Json.obj [("value", Json.num 5)]))).batteries_dc 7).isSome = true
    ∧ (lookupRecord
        (handle_publish (⟨AcSpec.init, AcSpec.init, Ess.init, [(7, BatteryDC.init)],
            [(3, PvInverter.init)]⟩ : VictronData) "S" "N/S/vebus/275/Hub4/L1/AcPowerSetpoint"
          (Payload.json (Json.obj [("value", Json.num 5)]))).pv_inverters 3).isSome = true := by
  refine ⟨fun h => Payload.noConfusion h, by decide, by decide, by decide, by decide,
    by decide, ?_⟩
  have h := claim_C4 (⟨AcSpec.init, AcSpec.init, Ess.init, [(7, BatteryDC.init)],
      [(3, PvInverter.init)]⟩ : VictronData) "S" "512" "Soc" "Ac/Power"
    "N/S/vebus/275/Hub4/L1/AcPowerSetpoint"
    (Payload.json (Json.obj [("value", Json.num 5)])) 7 3
    (fun h => Payload.noConfusion h) (by decide) (by decide) (by decide) (by decide) (by decide)
  exact h

/-- C7: a battery or pvinverter frame whose id segment is not numeric is
not rejected — it is dispatched to the record at id 0, so it has exactly
the effect of the same frame with id segment `0`. -/
theorem claim_C7 (d : VictronData) (S seg tail : String) (p : Payload)
    (hseg : ∀ c ∈ seg.data, ¬ c = '/')
    (hfail : parseU16 seg = none) :
    handle_publish d S ("N/" ++ S ++ "/" ++ "battery" ++ "/" ++ seg ++ "/" ++ tail) p
      = handle_publish d S ("N/" ++ S ++ "/" ++ "battery" ++ "/" ++ "0" ++ "/" ++ tail) p
    ∧ handle_publish d S ("N/" ++ S ++ "/" ++ "pvinverter" ++ "/" ++ seg ++ "/" ++ tail) p
      = handle_publish d S ("N/" ++ S ++ "/" ++ "pvinverter" ++ "/" ++ "0" ++ "/" ++ tail) p := by
  by_cases hp : p = Payload.invalidUtf8
  · subst hp
    exact ⟨rfl, rfl⟩
  · constructor
    · rw [handle_publish_two_seg d S "battery" seg tail p hp (by decide) hseg,
        handle_publish_two_seg d S "battery" "0" tail p hp (by decide) (by decide),
        route_battery, route_battery, hfail,
        show (parseU16 "0").getD 0 = 0 from by decide]
      rfl
    · rw [handle_publish_two_seg d S "pvinverter" seg tail p hp (by decide) hseg,
        handle_publish_two_seg d S "pvinverter" "0" tail p hp (by decide) (by decide),
        route_pvinverter, route_pvinverter, hfail,
        show (parseU16 "0").getD 0 = 0 from by decide]
      rfl

theorem claim_C7_witness :
    (∀ c ∈ ("abc" : String).data, ¬ c = '/')
    ∧ parseU16 "abc" = none
    ∧ handle_publish VictronData.init "S"
        ("N/" ++ "S" ++ "/" ++ "battery" ++ "/" ++ "abc" ++ "/" ++ "Soc") Payload.invalidJson
      = handle_publish VictronData.init "S"
        ("N/" ++ "S" ++ "/" ++ "battery" ++ "/" ++ "0" ++ "/" ++ "Soc") Payload.invalidJson
    ∧ handle_publish VictronData.init "S"
        ("N/" ++ "S" ++ "/" ++ "pvinverter" ++ "/" ++ "abc" ++ "/" ++ "Soc") Payload.invalidJson
      = handle_publish VictronData.init "S"
        ("N/" ++ "S" ++ "/" ++ "pvinverter" ++ "/" ++ "0" ++ "/" ++ "Soc") Payload.invalidJson := by
  have h := claim_C7 VictronData.init "S" "abc" "Soc" Payload.invalidJson (by decide) (by decide)
  exact ⟨by decide, by decide, h.1, h.2⟩

/-- C9: a battery or pvinverter frame for an unseen id whose remaining
segments match no per-entity pattern still mutates state — an all-Unset
record is inserted at that id — whereas an unmatched topic outside those
two arms (e.g. `N/<S>/some/unknown/path`) is a strict no-op. -/
theorem claim_C9 (d : VictronData) (S seg tailB tailP : String) (p : Payload)
    (hp : ¬ p = Payload.invalidUtf8)
    (hseg : ∀ c ∈ seg.data, ¬ c = '/')
    (hmissB : batteryMiss ((splitOnChar '/' tailB.data).map String.mk) = true)
    (hmissP : pvinverterMiss ((splitOnChar '/' tailP.data).map String.mk) = true)
    (hnewB : lookupRecord d.batteries_dc ((parseU16 seg).getD 0) = none)
    (hnewP : lookupRecord d.pv_inverters ((parseU16 seg).getD 0) = none) :
    lookupRecord
        (handle_publish d S ("N/" ++ S ++ "/" ++ "battery" ++ "/" ++ seg ++ "/" ++ tailB)
          p).batteries_dc ((parseU16 seg).getD 0) = some BatteryDC.init
    ∧ ¬ handle_publish d S ("N/" ++ S ++ "/" ++ "battery" ++ "/" ++ seg ++ "/" ++ tailB) p = d
    ∧ lookupRecord
        (handle_publish d S ("N/" ++ S ++ "/" ++ "pvinverter" ++ "/" ++ seg ++ "/" ++ tailP)
          p).pv_inverters ((parseU16 seg).getD 0) = some PvInverter.init
    ∧ ¬ handle_publish d S ("N/" ++ S ++ "/" ++ "pvinverter" ++ "/" ++ seg ++ "/" ++ tailP) p = d
    ∧ handle_publish d S ("N/" ++ S ++ "/" ++ "some/unknown/path") p = d := by
  have hB : lookupRecord
      (handle_publish d S ("N/" ++ S ++ "/" ++ "battery" ++ "/" ++ seg ++ "/" ++ tailB)
        p).batteries_dc ((parseU16 seg).getD 0) = some BatteryDC.init := by
    rw [handle_publish_two_seg d S "battery" seg tailB p hp (by decide) hseg, route_battery]
    show lookupRecord
        (updateEntry d.batteries_dc ((parseU16 seg).getD 0)
          (fun b => b.handle_frame ((splitOnChar '/' tailB.data).map String.mk) (decodeValue p))
          BatteryDC.init) ((parseU16 seg).getD 0) = _
    rw [lookup_updateEntry_self, hnewB]
    rw [show (Option.getD (none : Option BatteryDC) BatteryDC.init) = BatteryDC.init from rfl,
      battery_frame_miss _ _ _ hmissB]
  have hP : lookupRecord
      (handle_publish d S ("N/" ++ S ++ "/" ++ "pvinverter" ++ "/" ++ seg ++ "/" ++ tailP)
        p).pv_inverters ((parseU16 seg).getD 0) = some PvInverter.init := by
    rw [handle_publish_two_seg d S "pvinverter" seg tailP p hp (by decide) hseg,
      route_pvinverter]
    show lookupRecord
        (updateEntry d.pv_inverters ((parseU16 seg).getD 0)
          (fun q => q.handle_frame ((splitOnChar '/' tailP.data).map String.mk) (decodeValue p))
          PvInverter.init) ((parseU16 seg).getD 0) = _
    rw [lookup_updateEntry_self, hnewP]
    rw [show (Option.getD (none : Option PvInverter) PvInverter.init) = PvInverter.init from rfl,
      pvinverter_frame_miss _ _ _ hmissP]
  refine ⟨hB, ?_, hP, ?_, ?_⟩
  · intro he
    rw [he, hnewB] at hB
    exact Option.noConfusion hB
  · intro he
    rw [he, hnewP] at hP
    exact Option.noConfusion hP
  · rw [handle_publish_suffix d S "some/unknown/path" p hp]
    rfl

theorem claim_C9_witness :
    ¬ Payload.invalidJson = Payload.invalidUtf8
    ∧ (∀ c ∈ ("9" : String).data, ¬ c = '/')
    ∧ batteryMiss ((splitOnChar '/' ("Bogus/Path" : String).data).map String.mk) = true
    ∧ pvinverterMiss ((splitOnChar '/' ("Nothing" : String).data).map String.mk) = true
    ∧ lookupRecord VictronData.init.batteries_dc ((parseU16 "9").getD 0) = none
    ∧ lookupRecord VictronData.init.pv_inverters ((parseU16 "9").getD 0) = none
    ∧ lookupRecord
        (handle_publish VictronData.init "S"
          ("N/" ++ "S" ++ "/" ++ "battery" ++ "/" ++ "9" ++ "/" ++ "Bogus/Path")
          Payload.invalidJson).batteries_dc ((parseU16 "9").getD 0) = some BatteryDC.init
    ∧ ¬ handle_publish VictronData.init "S"
          ("N/" ++ "S" ++ "/" ++ "battery" ++ "/" ++ "9" ++ "/" ++ "Bogus/Path")
          Payload.invalidJson = VictronData.init
    ∧ lookupRecord
        (handle_publish VictronData.init "S"
          ("N/" ++ "S" ++ "/" ++ "pvinverter" ++ "/" ++ "9" ++ "/" ++ "Nothing")
          Payload.invalidJson).pv_inverters ((parseU16 "9").getD 0) = some PvInverter.init
    ∧ ¬ handle_publish VictronData.init "S"
          ("N/" ++ "S" ++ "/" ++ "pvinverter" ++ "/" ++ "9" ++ "/" ++ "Nothing")
          Payload.invalidJson = VictronData.init
    ∧ handle_publish VictronData.init "S" ("N/" ++ "S" ++ "/" ++ "some/unknown/path")
        Payload.invalidJson = VictronData.init := by
  refine ⟨fun h => Payload.noConfusion h, by decide, by decide, by decide, by decide,
    by decide, ?_⟩
  exact claim_C9 VictronData.init "S" "9" "Bogus/Path" "Nothing" Payload.invalidJson
    (fun h => Payload.noConfusion h) (by decide) (by decide) (by decide) (by decide) (by decide)

/-- C10: device ids are parsed as 16-bit unsigned integers — any parse
that succeeds yields a value at most 65535; numerals out of range
(`"70000"`) and signed numerals (`"-3"`) fail and therefore fold into the
id-0 bucket exactly like non-numeric ids; and every id up to 65535 is
reachable as its own distinct map key via its decimal numeral. -/
theorem claim_C10 (s : String) (n : Nat) (h : parseU16 s = some n) (m : Nat) (hm : m ≤ 65535)
    (d : VictronData) (p : Payload) :
    n ≤ 65535
    ∧ parseU16 "70000" = none
    ∧ parseU16 "-3" = none
    ∧ parseU16 (natToStr m) = some m
    ∧ handle_publish d "S" "N/S/battery/70000/Soc" p
        = handle_publish d "S" "N/S/battery/0/Soc" p := by
  refine ⟨parseU16_le s n h, by decide, by decide, parseU16_natToStr m (by omega), ?_⟩
  by_cases hp : p = Payload.invalidUtf8
  · subst hp
    rfl
  · rw [show ("N/S/battery/70000/Soc" : String)
        = "N/" ++ "S" ++ "/" ++ "battery/70000/Soc" from rfl,
      show ("N/S/battery/0/Soc" : String) = "N/" ++ "S" ++ "/" ++ "battery/0/Soc" from rfl,
      handle_publish_suffix d "S" "battery/70000/Soc" p hp,
      handle_publish_suffix d "S" "battery/0/Soc" p hp]
    show route d ["battery", "70000", "Soc"] (decodeValue p)
      = route d ["battery", "0", "Soc"] (decodeValue p)
    rw [route_battery, route_battery,
      show (parseU16 "70000").getD 0 = 0 from by decide,
      show (parseU16 "0").getD 0 = 0 from by decide]

theorem claim_C10_witness :
    parseU16 "512" = some 512
    ∧ (512 : Nat) ≤ 65535
    ∧ (65535 : Nat) ≤ 65535
    ∧ parseU16 "70000" = none
    ∧ parseU16 "-3" = none
    ∧ parseU16 (natToStr 65535) = some 65535
    ∧ handle_publish VictronData.init "S" "N/S/battery/70000/Soc" Payload.invalidJson
        = handle_publish VictronData.init "S" "N/S/battery/0/Soc" Payload.invalidJson := by
  have h := claim_C10 "512" 512 (by decide) 65535 (by decide) VictronData.init
    Payload.invalidJson
  exact ⟨by decide, h.1, by decide, h.2.1, h.2.2.1, h.2.2.2.1, h.2.2.2.2⟩

end VictronGx
